import Mathlib

/-! geo-dns-cache: a shallow embedding of `src/index.js`.

The program is one asynchronous script.  It fills the `dnsServers` collection from the
configuration (the startup upsert loop), defines `findBestDNSServer`, and registers the
`message` handler of the UDP socket.  The collaborators (MongoDB collections, geoip-lite,
dns-packet, the upstream resolvers) are modelled as follows.

* A collection is the list of its documents in natural order: `insertMany` and an upserting
  `updateOne` that matches nothing append at the end, an `updateOne` that matches rewrites the
  first matching document in place, `find` filters in natural order, a sort is stable.
* `geoip.lookup` is a function to `Option`; `null` is `none`.
* `dnsPacket.decode` is a function to `Option`; `none` stands for a thrown error.
* The reply an outbound socket receives is given by an oracle, which may also stay silent
  (the promise never settles) or emit `error` (the promise is rejected).
* The great-circle distance used by `$nearSphere` is a parameter with values in a linear order.
* Resource records carry string-valued record data.  Records whose data dns-packet decodes to a
  Buffer are outside the model: the store returns them with the data as a BSON Binary object.
-/

namespace GeoDnsCache

/-! ## Data model -/

abbrev IP := String

abbrev Buffer := List Nat

/-- A geoip-lite record: `ll` is the pair latitude, longitude. -/
structure GeoRecord where
  ll : Int × Int
deriving DecidableEq, Repr

/-- The method `reverse` of a two-element array. -/
def reverse (ll : Int × Int) : Int × Int := (ll.2, ll.1)

/-- An entry of `config.servers`. -/
structure ServerConfig where
  ip : IP
  port : Nat
deriving DecidableEq, Repr

/-- A document of the `dnsServers` collection.  `lnglat` holds the coordinates of the GeoJSON
point.  `speedRanking` is the field the fallback query sorts on; no statement of the program
writes it, so it is absent (`none`) in every document the program inserts. -/
structure ServerDoc where
  ip : IP
  port : Nat
  lnglat : Int × Int
  ranking : Nat
  speedRanking : Option Int
deriving DecidableEq, Repr

abbrev Directory := List ServerDoc

/-- The `$set` document of the startup loop (index.js 30-38). -/
structure SetFields where
  ip : IP
  port : Nat
  lnglat : Int × Int
  ranking : Nat
deriving DecidableEq, Repr

/-- Applying `$set` to an existing document: the four named fields are overwritten, every other
field is kept. -/
def applySet (s : SetFields) (d : ServerDoc) : ServerDoc :=
  { d with ip := s.ip, port := s.port, lnglat := s.lnglat, ranking := s.ranking }

/-- The document an upsert inserts when the filter matches nothing. -/
def insertDoc (s : SetFields) : ServerDoc :=
  { ip := s.ip, port := s.port, lnglat := s.lnglat, ranking := s.ranking, speedRanking := none }

/-- The call `servers.updateOne({ ip }, { $set }, { upsert: true })`: the first document whose
`ip` equals the filter is rewritten in place; when there is none a new document is appended. -/
def updateOne (ip : IP) (s : SetFields) : Directory → Directory
  | [] => [insertDoc s]
  | d :: ds => if d.ip = ip then applySet s d :: ds else d :: updateOne ip s ds

/-- Faults that reject the promise of an async function. -/
inductive Fault where
  | typeError
  | decodeError
  | socketError
deriving DecidableEq, Repr

instance instDecidableEqExcept {ε α : Type} [DecidableEq ε] [DecidableEq α] :
    DecidableEq (Except ε α)
  | .ok a, .ok b => if h : a = b then isTrue (by rw [h]) else isFalse (fun h1 => h (by cases h1; rfl))
  | .error a, .error b =>
    if h : a = b then isTrue (by rw [h]) else isFalse (fun h1 => h (by cases h1; rfl))
  | .ok _, .error _ => isFalse (fun h => by cases h)
  | .error _, .ok _ => isFalse (fun h => by cases h)

/-- The startup loop (index.js 25-40), from index `i` on the remaining configured servers.
`geoip.lookup(ip).ll` throws a TypeError when the lookup returns `null`; the documents written
so far stay in the store. -/
def startupLoop (geoip : IP → Option GeoRecord) :
    Nat → List ServerConfig → Directory → Except (Fault × Directory) Directory
  | _, [], servers => .ok servers
  | i, srv :: rest, servers =>
    match geoip srv.ip with
    | none => .error (Fault.typeError, servers)
    | some geo =>
      startupLoop geoip (i + 1) rest
        (updateOne srv.ip
          { ip := srv.ip, port := srv.port, lnglat := reverse geo.ll, ranking := i } servers)

/-- The startup loop from `i = 0`. -/
def startup (geoip : IP → Option GeoRecord) (config : List ServerConfig)
    (servers : Directory) : Except (Fault × Directory) Directory :=
  startupLoop geoip 0 config servers

/-! ## Queries on the directory -/

/-- BSON comparison of a possibly missing number: a missing field compares as `null`, which
sorts below every number. -/
def bsonLe : Option Int → Option Int → Bool
  | none, _ => true
  | some _, none => false
  | some a, some b => decide (a ≤ b)

/-- The cursor modifier `sort({ speedRanking: -1 })`: descending on `speedRanking`, stable. -/
def sortSpeedRankingDesc (docs : Directory) : Directory :=
  docs.insertionSort (fun a b => bsonLe b.speedRanking a.speedRanking = true)

/-- The filter `{ lnglat: { $nearSphere: c } }`: all documents, nearest first, stable. -/
def nearSphere {D : Type} [LinearOrder D] (dist : Int × Int → Int × Int → D) (c : Int × Int)
    (docs : Directory) : Directory :=
  docs.insertionSort (fun a b => dist c a.lnglat ≤ dist c b.lnglat)

/-- The cursor modifier `limit(n)`. -/
def limit (n : Nat) (docs : Directory) : Directory := docs.take n

/-- The cursor method `next()`: the first document, or `null`. -/
def next (docs : Directory) : Option ServerDoc := docs.head?

/-- The function `findBestDNSServer` (index.js 45-61).  The sort is set on the cursor before it
is run, so the store sorts first and limits afterwards. -/
def findBestDNSServer {D : Type} [LinearOrder D] (geoip : IP → Option GeoRecord)
    (dist : Int × Int → Int × Int → D) (servers : Directory) (ipAddressOfClient : IP) :
    Option ServerDoc :=
  match geoip ipAddressOfClient with
  | some geo => next (limit 1 (nearSphere dist (reverse geo.ll) servers))
  | none => next (limit 1 (sortSpeedRankingDesc servers))

/-! ## DNS messages and the answer cache -/

/-- A question as dns-packet decodes it. -/
structure Question where
  name : String
  type : String
  «class» : String
deriving DecidableEq, Repr

/-- A resource record as dns-packet decodes it; the proxy never looks inside.  `data` is the
record data of the record types that dns-packet decodes to a string (A, AAAA, CNAME, NS, PTR).
Record data that dns-packet decodes to a Buffer (TXT, NULL, unknown types) is not represented:
the store hands a Buffer back as a BSON Binary object, so for such a record a read does not
return what was written. -/
structure Answer where
  name : String
  type : String
  ttl : Nat
  data : String
deriving DecidableEq, Repr

inductive PacketType where
  | query
  | response
deriving DecidableEq, Repr

/-- A DNS message object.  The defaults are the ones `dnsPacket.encode` uses for fields the
caller leaves out. -/
structure Packet where
  type : PacketType
  id : Nat := 0
  questions : List Question := []
  answers : List Answer := []
deriving DecidableEq, Repr

/-- The dns-packet module: `decode` returns `none` where the module throws. -/
structure DnsPacket where
  decode : Buffer → Option Packet
  encode : Packet → Buffer

/-- A document of the `cache` collection, as written at index.js 103-106. -/
structure CacheDoc where
  question : Question
  answer : Answer
deriving DecidableEq, Repr

abbrev Cache := List CacheDoc

/-- The call `cache.find({ question.class, question.type, question.name }).toArray()`.  The
documents of this model hold string-valued record data only, which the store returns as
written. -/
def cacheFind (cache : Cache) (question : Question) : List CacheDoc :=
  cache.filter (fun d =>
    decide (d.question.«class» = question.«class») &&
    decide (d.question.type = question.type) &&
    decide (d.question.name = question.name))

/-- The call `cache.insertMany(docs)`. -/
def insertMany (cache : Cache) (docs : List CacheDoc) : Cache := cache ++ docs

/-- An index specification as passed to `createIndex`. -/
structure IndexSpec where
  key : List String
  expireAfterSeconds : Option Nat
deriving DecidableEq, Repr

/-- The index created on the cache collection (index.js 17-22). -/
def cacheIndex : IndexSpec :=
  { key := ["question.class", "question.name", "question.type"], expireAfterSeconds := some 86400 }

/-- One pass of the store's TTL monitor at time `now` (in seconds).  MongoDB honours
`expireAfterSeconds` on a single-field index only, and then removes the documents whose indexed
field holds a date at least that old; on a compound index the option is ignored.  `dateOf` reads
the date a field of a document holds, if it holds one. -/
def ttlPass (dateOf : CacheDoc → String → Option Nat) (ix : IndexSpec) (now : Nat)
    (docs : Cache) : Cache :=
  match ix.key, ix.expireAfterSeconds with
  | [field], some secs =>
    docs.filter (fun d =>
      match dateOf d field with
      | some t => decide (now < t + secs)
      | none => true)
  | _, _ => docs

/-! ## The message handler -/

/-- The second argument of the `message` event. -/
structure RemoteInfo where
  address : IP
  port : Nat
deriving DecidableEq, Repr

/-- A datagram handed to `socket.send(msg, port, address)`. -/
structure Datagram where
  msg : Buffer
  port : Nat
  address : IP
deriving DecidableEq, Repr

/-- What an outbound socket observes after its datagram is sent: one `message`, an `error`, or
nothing at all. -/
inductive SocketEvent where
  | message (m : Buffer)
  | error
  | silent
deriving DecidableEq, Repr

/-- How an async function ends: it returns, its promise is rejected, or it stays suspended in
an `await` for ever. -/
inductive Status where
  | completed
  | rejected (f : Fault)
  | pending
deriving DecidableEq, Repr

/-- The collaborators of the handler.  `upstream i dgram` is the event seen by the outbound
socket opened for the question at position `i` of the query after `dgram` was sent on it. -/
structure Env (D : Type) where
  geoip : IP → Option GeoRecord
  dist : Int × Int → Int × Int → D
  dnsPacket : DnsPacket
  upstream : Nat → Datagram → SocketEvent

/-- The state the question loop threads: the cache collection, the `answers` array, and the
datagrams sent to upstream servers so far. -/
structure LoopState where
  cache : Cache
  answers : List Answer
  outbound : List Datagram
deriving DecidableEq, Repr

/-- The `for (const question of incomingMessage.questions)` loop (index.js 72-114); `i` is the
position of the next question. -/
def questionLoop {D : Type} (env : Env D) (bestServer : Option ServerDoc) :
    Nat → List Question → LoopState → LoopState × Status
  | _, [], s => (s, Status.completed)
  | i, question :: rest, s =>
    let resp := (cacheFind s.cache question).map (fun d => d.answer)
    if resp.length = 0 then
      match bestServer with
      | none => (s, Status.rejected Fault.typeError)
      | some serverInfo =>
        let dgram : Datagram :=
          { msg := env.dnsPacket.encode { type := PacketType.query, questions := [question] },
            port := serverInfo.port, address := serverInfo.ip }
        let s1 : LoopState := { s with outbound := s.outbound ++ [dgram] }
        match env.upstream i dgram with
        | SocketEvent.silent => (s1, Status.pending)
        | SocketEvent.error => (s1, Status.rejected Fault.socketError)
        | SocketEvent.message outboundResponse =>
          match env.dnsPacket.decode outboundResponse with
          | none => (s1, Status.rejected Fault.decodeError)
          | some decodedOutboundResponse =>
            let answers := decodedOutboundResponse.answers
            let cache1 :=
              if answers.length = 0 then s1.cache
              else insertMany s1.cache (answers.map (fun answer => ({ question, answer } : CacheDoc)))
            questionLoop env bestServer (i + 1) rest
              { cache := cache1, answers := s1.answers ++ decodedOutboundResponse.answers,
                outbound := s1.outbound }
    else
      questionLoop env bestServer (i + 1) rest { s with answers := s.answers ++ resp }

/-- What one run of the handler leaves behind. -/
structure Outcome where
  cache : Cache
  outbound : List Datagram
  sent : List Datagram
  status : Status
deriving DecidableEq, Repr

/-- The `message` handler of `dnsServer` (index.js 63-123). -/
def onMessage {D : Type} [LinearOrder D] (env : Env D) (servers : Directory) (cache : Cache)
    (rawIncomingMessage : Buffer) (info : RemoteInfo) : Outcome :=
  let bestServer := findBestDNSServer env.geoip env.dist servers info.address
  match env.dnsPacket.decode rawIncomingMessage with
  | none => { cache := cache, outbound := [], sent := [], status := Status.rejected Fault.decodeError }
  | some incomingMessage =>
    match questionLoop env bestServer 0 incomingMessage.questions
        { cache := cache, answers := [], outbound := [] } with
    | (s, Status.completed) =>
      let resp := env.dnsPacket.encode
        { type := PacketType.response, answers := s.answers, id := incomingMessage.id }
      { cache := s.cache, outbound := s.outbound,
        sent := [{ msg := resp, port := info.port, address := info.address }],
        status := Status.completed }
    | (s, status) => { cache := s.cache, outbound := s.outbound, sent := [], status := status }

/-! ## Invariants of the startup loop -/

/-- The addresses held by a directory, in natural order. -/
def addresses (dir : Directory) : List IP := dir.map (fun d => d.ip)

/-- Every document of `dir` whose address is configured carries the port, the coordinates and
the index of the last configured server with that address; `i` is the index of the head of
`config`. -/
def Settled (geoip : IP → Option GeoRecord) (i : Nat) (config : List ServerConfig)
    (dir : Directory) : Prop :=
  ∀ d ∈ dir, ∀ (k : Nat) (srv : ServerConfig) (geo : GeoRecord),
    config[k]? = some srv → srv.ip = d.ip →
    (∀ (j : Nat) (later : ServerConfig), k < j → config[j]? = some later → later.ip ≠ srv.ip) →
    geoip srv.ip = some geo →
    d.port = srv.port ∧ d.lnglat = reverse geo.ll ∧ d.ranking = i + k

/-- Two documents that differ at most in fields the remaining loop iterations will overwrite. -/
def Agree (config : List ServerConfig) (d e : ServerDoc) : Prop :=
  d.ip = e.ip ∧ d.speedRanking = e.speedRanking ∧
    (e.ip ∉ config.map (fun srv => srv.ip) → d = e)

/-! ## Sample data -/

/-- A geolocation table: two servers in one city, one server elsewhere, one client near the
first city.  Every other address (loopback, private ranges) is unknown. -/
def sampleGeoip : IP → Option GeoRecord := fun ip =>
  if ip = "192.0.2.1" then some { ll := (4885, 235) }
  else if ip = "192.0.2.2" then some { ll := (4885, 235) }
  else if ip = "198.51.100.7" then some { ll := (4071, -7400) }
  else if ip = "203.0.113.5" then some { ll := (4886, 234) }
  else none

/-- A stand-in for the great-circle distance on the sample coordinates. -/
def sampleDist (a b : Int × Int) : Nat := (a.1 - b.1).natAbs + (a.2 - b.2).natAbs

def sampleS1 : ServerConfig := { ip := "192.0.2.1", port := 53 }

def sampleS2 : ServerConfig := { ip := "192.0.2.2", port := 53 }

def sampleS3 : ServerConfig := { ip := "198.51.100.7", port := 53 }

/-- The directory left by a startup with the configuration `[S2, S1]` followed by a startup with
the configuration `[S1, S2]`. -/
def sampleReordered : Directory :=
  [{ ip := "192.0.2.2", port := 53, lnglat := (235, 4885), ranking := 1, speedRanking := none },
   { ip := "192.0.2.1", port := 53, lnglat := (235, 4885), ranking := 0, speedRanking := none }]

/-- The entry of `S1` in the reordered directory. -/
def sampleDocS1 : ServerDoc :=
  { ip := "192.0.2.1", port := 53, lnglat := (235, 4885), ranking := 0, speedRanking := none }

/-- The entry of `S2` in the reordered directory. -/
def sampleDocS2 : ServerDoc :=
  { ip := "192.0.2.2", port := 53, lnglat := (235, 4885), ranking := 1, speedRanking := none }

def sampleQ1 : Question := { name := "example.com", type := "A", «class» := "IN" }

def sampleQ2 : Question := { name := "iana.org", type := "A", «class» := "IN" }

def sampleA1 : Answer := { name := "example.com", type := "A", ttl := 300, data := "93.184.216.34" }

def sampleA2 : Answer := { name := "iana.org", type := "A", ttl := 600, data := "192.0.43.8" }

/-- A stand-in for the wire format, defined on the messages of the samples: the message type,
the id, the two counts, then the length of each question name and the ttl of each answer. -/
def sampleEncode (p : Packet) : Buffer :=
  (match p.type with
    | PacketType.query => 0
    | PacketType.response => 1) ::
  p.id :: p.questions.length :: p.answers.length ::
  (p.questions.map (fun q => q.name.length) ++ p.answers.map (fun a => a.ttl))

/-- The inverse of `sampleEncode` on the sample messages; every other buffer is malformed. -/
def sampleDecode (b : Buffer) : Option Packet :=
  if b = [0, 7, 1, 0, 11] then
    some { type := PacketType.query, id := 7, questions := [sampleQ1] }
  else if b = [0, 9, 2, 0, 11, 8] then
    some { type := PacketType.query, id := 9, questions := [sampleQ1, sampleQ2] }
  else if b = [1, 0, 0, 1, 300] then
    some { type := PacketType.response, answers := [sampleA1] }
  else if b = [1, 0, 0, 1, 600] then
    some { type := PacketType.response, answers := [sampleA2] }
  else none

/-- Upstream resolvers that answer the two sample questions and nothing else. -/
def sampleUpstream (_ : Nat) (d : Datagram) : SocketEvent :=
  if d.msg = [0, 0, 1, 0, 11] then SocketEvent.message [1, 0, 0, 1, 300]
  else if d.msg = [0, 0, 1, 0, 8] then SocketEvent.message [1, 0, 0, 1, 600]
  else SocketEvent.silent

def sampleEnv : Env Nat :=
  { geoip := sampleGeoip, dist := sampleDist,
    dnsPacket := { decode := sampleDecode, encode := sampleEncode },
    upstream := sampleUpstream }

def sampleInfo : RemoteInfo := { address := "203.0.113.5", port := 40000 }

/-! ## Derived notions used to state the claims -/

/-- The datagram the loop sends for `question` to `serverInfo` (index.js 86-91). -/
def outboundQuery (dnsPacket : DnsPacket) (serverInfo : ServerDoc) (question : Question) :
    Datagram :=
  { msg := dnsPacket.encode { type := PacketType.query, questions := [question] },
    port := serverInfo.port, address := serverInfo.ip }

/-- The answers of the decoded reply to the question at position `i`, when a server was
selected and its reply arrives and decodes. -/
def upstreamAnswers {D : Type} (env : Env D) (bestServer : Option ServerDoc) (i : Nat)
    (question : Question) : Option (List Answer) :=
  match bestServer with
  | none => none
  | some serverInfo =>
    match env.upstream i (outboundQuery env.dnsPacket serverInfo question) with
    | SocketEvent.message m => (env.dnsPacket.decode m).map (fun r => r.answers)
    | _ => none

/-- The response datagram of index.js 116-122 for the given answers. -/
def responseTo (dnsPacket : DnsPacket) (incomingMessage : Packet) (info : RemoteInfo)
    (answers : List Answer) : Datagram :=
  { msg := dnsPacket.encode
      { type := PacketType.response, answers := answers, id := incomingMessage.id },
    port := info.port, address := info.address }

/-! ## The resolution of a query as the specification describes it -/

/-- Spec 4.3, `lookup`: the answers stored for the exact (class, type, name) key. -/
def specLookup (cache : Cache) (question : Question) : List Answer :=
  (cache.filter (fun d => decide (d.question = question))).map (fun d => d.answer)

/-- Spec 4.4, step 4, for one question: the cached answers when the lookup is non-empty;
otherwise the answers of the upstream reply, stored under the question when there is at least
one.  The result is the question's answers and the cache afterwards; there is none when the
question has to be forwarded and no reply is available. -/
def specResolve (cache : Cache) (question : Question) (reply : Option (List Answer)) :
    Option (List Answer × Cache) :=
  if specLookup cache question ≠ [] then some (specLookup cache question, cache)
  else
    match reply with
    | none => none
    | some answers =>
      if answers ≠ [] then
        some (answers, cache ++ answers.map (fun answer => ({ question, answer } : CacheDoc)))
      else some ([], cache)

/-- Spec 4.4, step 4, over the questions in order: the list of each question's own answers. -/
def specResolveAll (reply : Nat → Question → Option (List Answer)) :
    Nat → List Question → Cache → Option (List (List Answer))
  | _, [], _ => some []
  | i, question :: rest, cache =>
    match specResolve cache question (reply i question) with
    | none => none
    | some (own, cache1) => (specResolveAll reply (i + 1) rest cache1).map (fun l => own :: l)

/-! ## The directory after startup -/

theorem addresses_updateOne (ip : IP) (s : SetFields) (hs : s.ip = ip) (dir : Directory) :
    addresses (updateOne ip s dir) =
      if ip ∈ addresses dir then addresses dir else addresses dir ++ [ip] := by
  induction dir with
  | nil => simp [updateOne, addresses, insertDoc, hs]
  | cons d ds ih =>
    by_cases hd : d.ip = ip
    · simp [updateOne, hd, addresses, applySet, hs]
    · have hne : ¬ ip = d.ip := fun h => hd h.symm
      simp only [addresses] at ih
      by_cases hm : ip ∈ List.map (fun d => d.ip) ds
      · simp [updateOne, hd, addresses, hne, hm, ih]
      · simp [updateOne, hd, addresses, hne, hm, ih]

theorem nodup_addresses_updateOne (ip : IP) (s : SetFields) (hs : s.ip = ip) (dir : Directory)
    (hn : (addresses dir).Nodup) : (addresses (updateOne ip s dir)).Nodup := by
  rw [addresses_updateOne ip s hs]
  by_cases hm : ip ∈ addresses dir
  · simpa [hm] using hn
  · simp only [hm, if_false]
    exact List.Nodup.append hn (List.nodup_singleton ip) (by simpa using hm)

theorem mem_addresses_updateOne (ip : IP) (s : SetFields) (hs : s.ip = ip) (dir : Directory) :
    ip ∈ addresses (updateOne ip s dir) := by
  rw [addresses_updateOne ip s hs]
  by_cases hm : ip ∈ addresses dir <;> simp [hm]

theorem addresses_subset_updateOne (ip : IP) (s : SetFields) (hs : s.ip = ip) (dir : Directory)
    (a : IP) (ha : a ∈ addresses dir) : a ∈ addresses (updateOne ip s dir) := by
  rw [addresses_updateOne ip s hs]
  by_cases hm : ip ∈ addresses dir <;> simp [hm, ha]

theorem mem_of_mem_updateOne_of_ne (ip : IP) (s : SetFields) (hs : s.ip = ip) (d : ServerDoc)
    (hne : d.ip ≠ ip) : ∀ dir : Directory, d ∈ updateOne ip s dir → d ∈ dir
  | [], h => by
    simp only [updateOne, List.mem_singleton] at h
    exact absurd (by rw [h]; exact hs) hne
  | e :: es, h => by
    by_cases he : e.ip = ip
    · simp only [updateOne, he, if_true, List.mem_cons] at h
      rcases h with h | h
      · exact absurd (by rw [h]; exact hs) hne
      · exact List.mem_cons_of_mem _ h
    · simp only [updateOne, he, if_false, List.mem_cons] at h
      rcases h with h | h
      · exact h ▸ List.mem_cons_self _ _
      · exact List.mem_cons_of_mem _ (mem_of_mem_updateOne_of_ne ip s hs d hne es h)

theorem fields_of_mem_updateOne (ip : IP) (s : SetFields) (d : ServerDoc) (hd : d.ip = ip) :
    ∀ dir : Directory, (addresses dir).Nodup → d ∈ updateOne ip s dir →
      d.port = s.port ∧ d.lnglat = s.lnglat ∧ d.ranking = s.ranking
  | [], _, h => by
    simp only [updateOne, List.mem_singleton] at h
    subst h
    simp [insertDoc]
  | e :: es, hn, h => by
    have hn' : e.ip ∉ addresses es ∧ (addresses es).Nodup := by
      simpa [addresses] using hn
    by_cases he : e.ip = ip
    · simp only [updateOne, he, if_true, List.mem_cons] at h
      rcases h with h | h
      · subst h
        simp [applySet]
      · exact absurd (by rw [he, ← hd]; exact List.mem_map_of_mem _ h) hn'.1
    · simp only [updateOne, he, if_false, List.mem_cons] at h
      rcases h with h | h
      · exact absurd (h ▸ hd) he
      · exact fields_of_mem_updateOne ip s d hd es hn'.2 h

theorem startupLoop_ok (geoip : IP → Option GeoRecord) :
    ∀ (config : List ServerConfig) (i : Nat) (servers : Directory),
      (∀ srv ∈ config, (geoip srv.ip).isSome = true) →
      ∃ dir, startupLoop geoip i config servers = .ok dir
  | [], _, servers, _ => ⟨servers, rfl⟩
  | srv :: rest, i, servers, hg => by
    have h0 := hg srv (List.mem_cons_self _ _)
    obtain ⟨geo, hgeo⟩ := Option.isSome_iff_exists.mp h0
    simp only [startupLoop, hgeo]
    exact startupLoop_ok geoip rest (i + 1) _ (fun s hs => hg s (List.mem_cons_of_mem _ hs))

theorem startupLoop_inv (geoip : IP → Option GeoRecord) :
    ∀ (config : List ServerConfig) (i : Nat) (servers dir : Directory),
      startupLoop geoip i config servers = .ok dir → (addresses servers).Nodup →
      (addresses dir).Nodup ∧ (∀ a ∈ addresses servers, a ∈ addresses dir) ∧
      (∀ srv ∈ config, srv.ip ∈ addresses dir) ∧
      (∀ d ∈ dir, d.ip ∉ config.map (fun srv => srv.ip) → d ∈ servers) ∧
      Settled geoip i config dir
  | [], i, servers, dir, h, hn => by
    simp only [startupLoop, Except.ok.injEq] at h
    subst h
    refine ⟨hn, fun a ha => ha, by simp, fun d hd _ => hd, ?_⟩
    intro d _ k srv geo hk
    simp at hk
  | srv :: rest, i, servers, dir, h, hn => by
    cases hgeo : geoip srv.ip with
    | none => simp [startupLoop, hgeo] at h
    | some geo =>
      simp only [startupLoop, hgeo] at h
      have hn1 := nodup_addresses_updateOne srv.ip
        { ip := srv.ip, port := srv.port, lnglat := reverse geo.ll, ranking := i } rfl servers hn
      obtain ⟨h1, h2, h3, h4, h5⟩ := startupLoop_inv geoip rest (i + 1) _ dir h hn1
      refine ⟨h1, ?_, ?_, ?_, ?_⟩
      · intro a ha
        exact h2 a (addresses_subset_updateOne srv.ip _ rfl servers a ha)
      · intro s hs
        rcases List.mem_cons.mp hs with hs | hs
        · subst hs
          exact h2 _ (mem_addresses_updateOne s.ip _ rfl servers)
        · exact h3 s hs
      · intro d hd hnot
        have hnot' : d.ip ≠ srv.ip ∧ d.ip ∉ rest.map (fun srv => srv.ip) := by
          simpa [not_or] using hnot
        exact mem_of_mem_updateOne_of_ne srv.ip _ rfl d hnot'.1 servers (h4 d hd hnot'.2)
      · intro d hd k s g hk hip hlast hg
        cases k with
        | zero =>
          simp only [List.getElem?_cons_zero, Option.some.injEq] at hk
          subst hk
          have hnot : d.ip ∉ rest.map (fun srv => srv.ip) := by
            intro hmem
            obtain ⟨later, hl, hle⟩ := List.mem_map.mp hmem
            obtain ⟨j, hj⟩ := List.getElem?_of_mem hl
            exact hlast (j + 1) later (Nat.succ_pos j) (by simpa using hj) (hle.trans hip.symm)
          have hd1 := h4 d hd hnot
          rw [hgeo] at hg
          cases hg
          have := fields_of_mem_updateOne srv.ip
            { ip := srv.ip, port := srv.port, lnglat := reverse geo.ll, ranking := i } d hip.symm
            servers hn hd1
          simpa using this
        | succ k =>
          have hk' : rest[k]? = some s := by simpa using hk
          have := h5 d hd k s g hk' hip
            (fun j later hj hjl => hlast (j + 1) later (Nat.succ_lt_succ hj) (by simpa using hjl))
            hg
          refine ⟨this.1, this.2.1, ?_⟩
          rw [this.2.2]
          omega

theorem agree_tail (srv : ServerConfig) (rest : List ServerConfig) (ds es : Directory)
    (h : List.Forall₂ (Agree (srv :: rest)) ds es) (hnot : srv.ip ∉ addresses es) :
    List.Forall₂ (Agree rest) ds es := by
  induction h with
  | nil => exact List.Forall₂.nil
  | @cons d e ds es hde _ ih =>
    have hnot' : ¬ srv.ip = e.ip ∧ srv.ip ∉ addresses es := by
      simpa [addresses, not_or] using hnot
    refine List.Forall₂.cons ⟨hde.1, hde.2.1, fun hr => hde.2.2 ?_⟩ (ih hnot'.2)
    intro hmem
    rcases List.mem_cons.mp hmem with h | h
    · exact hnot'.1 h.symm
    · exact hr h

theorem updateOne_agree (srv : ServerConfig) (rest : List ServerConfig) (s : SetFields)
    (hs : s.ip = srv.ip) (ds es : Directory)
    (h : List.Forall₂ (Agree (srv :: rest)) ds es)
    (hn : (addresses es).Nodup) (hmem : srv.ip ∈ addresses es)
    (hf : ∀ e ∈ es, e.ip = srv.ip → e.ip ∉ rest.map (fun c => c.ip) →
        e.port = s.port ∧ e.lnglat = s.lnglat ∧ e.ranking = s.ranking) :
    List.Forall₂ (Agree rest) (updateOne srv.ip s ds) es := by
  induction h with
  | nil => simp [addresses] at hmem
  | @cons d e ds es hde htl ih =>
    have hn' : e.ip ∉ addresses es ∧ (addresses es).Nodup := by
      simpa [addresses] using hn
    by_cases hd : d.ip = srv.ip
    · have he : e.ip = srv.ip := hde.1 ▸ hd
      simp only [updateOne, hd, if_true]
      refine List.Forall₂.cons ⟨?_, ?_, ?_⟩ (agree_tail srv rest ds es htl (he ▸ hn'.1))
      · simp [applySet, hs, he]
      · simpa [applySet] using hde.2.1
      · intro hr
        have := hf e (List.mem_cons_self _ _) he hr
        have hsr := hde.2.1
        cases d
        cases e
        simp_all [applySet]
    · have he : e.ip ≠ srv.ip := hde.1 ▸ hd
      simp only [updateOne, hd, if_false]
      have hmem' : srv.ip ∈ addresses es := by
        have : srv.ip = e.ip ∨ srv.ip ∈ addresses es := by simpa [addresses] using hmem
        rcases this with h | h
        · exact absurd h.symm he
        · exact h
      refine List.Forall₂.cons ⟨hde.1, hde.2.1, fun hr => hde.2.2 ?_⟩
        (ih hn'.2 hmem' (fun x hx => hf x (List.mem_cons_of_mem _ hx)))
      intro hm
      rcases List.mem_cons.mp hm with h | h
      · exact he h
      · exact hr h

theorem startupLoop_fix (geoip : IP → Option GeoRecord) :
    ∀ (config : List ServerConfig) (i : Nat) (ds es : Directory),
      List.Forall₂ (Agree config) ds es → (addresses es).Nodup →
      (∀ srv ∈ config, srv.ip ∈ addresses es) →
      (∀ srv ∈ config, (geoip srv.ip).isSome = true) →
      Settled geoip i config es → startupLoop geoip i config ds = .ok es
  | [], i, ds, es, hag, _, _, _, _ => by
    have : List.Forall₂ (fun a b : ServerDoc => a = b) ds es :=
      List.Forall₂.imp (fun a b h => h.2.2 (by simp)) hag
    rw [List.forall₂_eq_eq_eq] at this
    simp [startupLoop, this]
  | srv :: rest, i, ds, es, hag, hn, hmem, hg, hset => by
    obtain ⟨geo, hgeo⟩ := Option.isSome_iff_exists.mp (hg srv (List.mem_cons_self _ _))
    simp only [startupLoop, hgeo]
    apply startupLoop_fix geoip rest (i + 1) _ es _ hn
      (fun s hs => hmem s (List.mem_cons_of_mem _ hs))
      (fun s hs => hg s (List.mem_cons_of_mem _ hs))
    · intro e he k s g hk hip hlast hgs
      have := hset e he (k + 1) s g (by simpa using hk) hip
        (fun j later hj hjl => by
          cases j with
          | zero => omega
          | succ j => exact hlast j later (by omega) (by simpa using hjl))
        hgs
      refine ⟨this.1, this.2.1, ?_⟩
      rw [this.2.2]
      omega
    · apply updateOne_agree srv rest _ rfl ds es hag hn (hmem srv (List.mem_cons_self _ _))
      intro e he hip hr
      have := hset e he 0 srv geo (by simp) hip.symm
        (fun j later hj hjl => by
          cases j with
          | zero => omega
          | succ j =>
            intro hc
            have hl : later ∈ rest := List.getElem?_mem (show rest[j]? = some later by simpa using hjl)
            exact hr (List.mem_map.mpr ⟨later, hl, hc.trans hip.symm⟩))
        hgeo
      simpa using this

theorem agree_refl (config : List ServerConfig) :
    ∀ dir : Directory, List.Forall₂ (Agree config) dir dir
  | [] => List.Forall₂.nil
  | _ :: ds => List.Forall₂.cons ⟨rfl, rfl, fun _ => rfl⟩ (agree_refl config ds)

/-! ## Claims on the directory -/

/-- C9. When every configured address geolocates, the startup loop, run on any prior directory
whose addresses are unique (the unique index on `ip`), succeeds; afterwards the directory holds
exactly one entry for each configured address, the entry of a configured server has as rank the
position of that server in the configuration (for an address configured more than once, the
position of its last occurrence), and a second run of the loop leaves the directory as it is. -/
theorem startup_directory (geoip : IP → Option GeoRecord) (config : List ServerConfig)
    (servers : Directory) (hu : (addresses servers).Nodup)
    (hg : ∀ srv ∈ config, (geoip srv.ip).isSome = true) :
    ∃ dir, startup geoip config servers = .ok dir ∧
      (∀ srv ∈ config, (addresses dir).count srv.ip = 1) ∧
      (∀ (i : Nat) (srv : ServerConfig), config[i]? = some srv →
        (∀ (j : Nat) (later : ServerConfig), i < j → config[j]? = some later →
          later.ip ≠ srv.ip) →
        ∀ d ∈ dir, d.ip = srv.ip → d.ranking = i) ∧
      startup geoip config dir = .ok dir := by
  obtain ⟨dir, hdir⟩ := startupLoop_ok geoip config 0 servers hg
  obtain ⟨h1, _, h3, _, h5⟩ := startupLoop_inv geoip config 0 servers dir hdir hu
  refine ⟨dir, hdir, ?_, ?_, ?_⟩
  · intro srv hs
    exact List.count_eq_one_of_mem h1 (h3 srv hs)
  · intro i srv hi hlast d hd hip
    obtain ⟨geo, hgeo⟩ := Option.isSome_iff_exists.mp (hg srv (List.getElem?_mem hi))
    have := (h5 d hd i srv geo hi hip.symm hlast hgeo).2.2
    simpa using this
  · exact startupLoop_fix geoip config 0 dir dir (agree_refl config dir) h1 h3 hg h5

/-- Witness of C9: a prior directory holding `S2` with stale data, and the configuration
`[S1, S2, S3]`. -/
theorem startup_directory_witness :
    ∃ dir, startup sampleGeoip [sampleS1, sampleS2, sampleS3]
        [{ ip := "192.0.2.2", port := 5353, lnglat := (0, 0), ranking := 7,
           speedRanking := none }] = .ok dir ∧
      (∀ srv ∈ [sampleS1, sampleS2, sampleS3], (addresses dir).count srv.ip = 1) ∧
      (∀ (i : Nat) (srv : ServerConfig), [sampleS1, sampleS2, sampleS3][i]? = some srv →
        (∀ (j : Nat) (later : ServerConfig), i < j →
          [sampleS1, sampleS2, sampleS3][j]? = some later → later.ip ≠ srv.ip) →
        ∀ d ∈ dir, d.ip = srv.ip → d.ranking = i) ∧
      startup sampleGeoip [sampleS1, sampleS2, sampleS3] dir = .ok dir :=
  startup_directory sampleGeoip [sampleS1, sampleS2, sampleS3] _ (by decide) (by decide)

/-- When no document carries a `speedRanking`, the fallback query returns the document that
comes first in natural order: the `ranking` field is not consulted. -/
theorem findBestDNSServer_fallback_head {D : Type} [LinearOrder D]
    (geoip : IP → Option GeoRecord) (dist : Int × Int → Int × Int → D) (servers : Directory)
    (ipAddressOfClient : IP) (hgeo : geoip ipAddressOfClient = none)
    (hs : ∀ d ∈ servers, d.speedRanking = none) :
    findBestDNSServer geoip dist servers ipAddressOfClient = servers.head? := by
  have hsorted : List.Sorted (fun a b : ServerDoc => bsonLe b.speedRanking a.speedRanking = true)
      servers := by
    refine List.pairwise_iff_forall_sublist.mpr ?_
    intro a b hab
    have hb : b ∈ servers := hab.subset (by simp)
    simp [hs b hb, bsonLe]
  simp only [findBestDNSServer, hgeo, sortSpeedRankingDesc, hsorted.insertionSort_eq, next, limit]
  cases servers <;> simp

/-- C1, evaluated on the code.  The directory is built by two startups, the first with the
configuration `[S2, S1]`, the second with `[S1, S2]`; the client address does not geolocate.
The fallback query returns `S2`, whose rank is 1, although the entry of rank 0 is `S1`. -/
theorem findBestDNSServer_fallback_not_rank_zero :
    startup sampleGeoip [sampleS2, sampleS1] [] =
      .ok [{ ip := "192.0.2.2", port := 53, lnglat := (235, 4885), ranking := 0,
             speedRanking := none },
           { ip := "192.0.2.1", port := 53, lnglat := (235, 4885), ranking := 1,
             speedRanking := none }] ∧
    startup sampleGeoip [sampleS1, sampleS2]
      [{ ip := "192.0.2.2", port := 53, lnglat := (235, 4885), ranking := 0,
         speedRanking := none },
       { ip := "192.0.2.1", port := 53, lnglat := (235, 4885), ranking := 1,
         speedRanking := none }] = .ok sampleReordered ∧
    sampleGeoip "127.0.0.1" = none ∧
    findBestDNSServer sampleGeoip sampleDist sampleReordered "127.0.0.1" =
      some { ip := "192.0.2.2", port := 53, lnglat := (235, 4885), ranking := 1,
             speedRanking := none } ∧
    (∃ d ∈ sampleReordered, d.ip = "192.0.2.1" ∧ d.ranking = 0) := by
  decide

/-- C2 as stated fails.  In the reordered directory both servers are at the same distance from
the client `203.0.113.5`; the query returns `S2` of rank 1, not `S1` of rank 0. -/
theorem findBestDNSServer_tie_not_lowest_rank :
    sampleGeoip "203.0.113.5" = some { ll := (4886, 234) } ∧
    findBestDNSServer sampleGeoip sampleDist sampleReordered "203.0.113.5" =
      some { ip := "192.0.2.2", port := 53, lnglat := (235, 4885), ranking := 1,
             speedRanking := none } ∧
    ¬ (∀ r, findBestDNSServer sampleGeoip sampleDist sampleReordered "203.0.113.5" = some r →
        (∀ e ∈ sampleReordered, sampleDist (234, 4886) r.lnglat ≤ sampleDist (234, 4886) e.lnglat) ∧
        (∀ e ∈ sampleReordered,
          sampleDist (234, 4886) e.lnglat = sampleDist (234, 4886) r.lnglat →
          r.ranking ≤ e.ranking)) := by
  refine ⟨by decide, by decide, ?_⟩
  intro h
  have h1 := (h sampleDocS2 (by decide)).2 sampleDocS1 (by decide) (by decide)
  exact absurd h1 (by decide)

/-- C2, amended.  For a non-empty directory and a client that geolocates to `c`, the query
returns an entry of the directory whose distance to `c` is minimal among all entries. -/
theorem findBestDNSServer_nearest {D : Type} [LinearOrder D] (geoip : IP → Option GeoRecord)
    (dist : Int × Int → Int × Int → D) (servers : Directory) (ipAddressOfClient : IP)
    (geo : GeoRecord) (hgeo : geoip ipAddressOfClient = some geo) (hne : servers ≠ []) :
    ∃ r, findBestDNSServer geoip dist servers ipAddressOfClient = some r ∧ r ∈ servers ∧
      ∀ e ∈ servers, dist (reverse geo.ll) r.lnglat ≤ dist (reverse geo.ll) e.lnglat := by
  haveI : IsTotal ServerDoc
      (fun a b => dist (reverse geo.ll) a.lnglat ≤ dist (reverse geo.ll) b.lnglat) :=
    ⟨fun a b => le_total _ _⟩
  haveI : IsTrans ServerDoc
      (fun a b => dist (reverse geo.ll) a.lnglat ≤ dist (reverse geo.ll) b.lnglat) :=
    ⟨fun a b c hab hbc => le_trans hab hbc⟩
  have hsorted := List.sorted_insertionSort
    (fun a b : ServerDoc => dist (reverse geo.ll) a.lnglat ≤ dist (reverse geo.ll) b.lnglat)
    servers
  have hmem : ∀ x, x ∈ List.insertionSort
      (fun a b : ServerDoc => dist (reverse geo.ll) a.lnglat ≤ dist (reverse geo.ll) b.lnglat)
      servers ↔ x ∈ servers := fun x => List.mem_insertionSort _
  simp only [findBestDNSServer, hgeo, nearSphere, next, limit]
  cases hl : List.insertionSort
      (fun a b : ServerDoc => dist (reverse geo.ll) a.lnglat ≤ dist (reverse geo.ll) b.lnglat)
      servers with
  | nil =>
    have := List.length_insertionSort
      (fun a b : ServerDoc => dist (reverse geo.ll) a.lnglat ≤ dist (reverse geo.ll) b.lnglat)
      servers
    rw [hl] at this
    exact absurd (List.length_eq_zero.mp this.symm) hne
  | cons r rs =>
    rw [hl] at hsorted hmem
    refine ⟨r, by simp, (hmem r).mp (List.mem_cons_self _ _), ?_⟩
    intro e he
    rcases List.mem_cons.mp ((hmem e).mpr he) with h | h
    · rw [h]
    · exact List.rel_of_sorted_cons hsorted e h

/-- Witness of the amended C2 on the reordered sample directory. -/
theorem findBestDNSServer_nearest_witness :
    ∃ r, findBestDNSServer sampleGeoip sampleDist sampleReordered "203.0.113.5" = some r ∧
      r ∈ sampleReordered ∧
      ∀ e ∈ sampleReordered,
        sampleDist (reverse (4886, 234)) r.lnglat ≤ sampleDist (reverse (4886, 234)) e.lnglat :=
  findBestDNSServer_nearest sampleGeoip sampleDist sampleReordered "203.0.113.5"
    { ll := (4886, 234) } (by decide) (by decide)

/-! ## Lemmas on the question loop -/

theorem cacheFind_eq_filter (cache : Cache) (question : Question) :
    cacheFind cache question = cache.filter (fun d => decide (d.question = question)) := by
  unfold cacheFind
  apply List.filter_congr
  intro d _
  rcases d with ⟨⟨n, t, c⟩, a⟩
  rcases question with ⟨n1, t1, c1⟩
  by_cases h1 : c = c1 <;> by_cases h2 : t = t1 <;> by_cases h3 : n = n1 <;> simp [h1, h2, h3]

theorem specLookup_eq (cache : Cache) (question : Question) :
    specLookup cache question = (cacheFind cache question).map (fun d => d.answer) := by
  rw [cacheFind_eq_filter, specLookup]

theorem questionLoop_hit {D : Type} (env : Env D) (bestServer : Option ServerDoc) (i : Nat)
    (question : Question) (rest : List Question) (s : LoopState)
    (h : cacheFind s.cache question ≠ []) :
    questionLoop env bestServer i (question :: rest) s =
      questionLoop env bestServer (i + 1) rest
        { s with answers := s.answers ++ (cacheFind s.cache question).map (fun d => d.answer) } := by
  simp [questionLoop, h]

theorem questionLoop_forward {D : Type} (env : Env D) (bestServer : Option ServerDoc) (i : Nat)
    (question : Question) (rest : List Question) (s : LoopState) (answers : List Answer)
    (h : cacheFind s.cache question = [])
    (hup : upstreamAnswers env bestServer i question = some answers) :
    ∃ serverInfo, bestServer = some serverInfo ∧
    questionLoop env bestServer i (question :: rest) s =
      questionLoop env bestServer (i + 1) rest
        { cache :=
            if answers.length = 0 then s.cache
            else insertMany s.cache (answers.map (fun answer => ({ question, answer } : CacheDoc))),
          answers := s.answers ++ answers,
          outbound := s.outbound ++ [outboundQuery env.dnsPacket serverInfo question] } := by
  cases bestServer with
  | none => simp [upstreamAnswers] at hup
  | some serverInfo =>
    refine ⟨serverInfo, rfl, ?_⟩
    simp only [upstreamAnswers, outboundQuery] at hup
    cases hu : env.upstream i
        { msg := env.dnsPacket.encode { type := PacketType.query, questions := [question] },
          port := serverInfo.port, address := serverInfo.ip } with
    | silent => simp [hu] at hup
    | error => simp [hu] at hup
    | message m =>
      rw [hu] at hup
      cases hd : env.dnsPacket.decode m with
      | none => simp [hd] at hup
      | some r =>
        simp only [hd, Option.map_some', Option.some.injEq] at hup
        subst hup
        simp [questionLoop, h, hu, hd, outboundQuery]

theorem questionLoop_cons {D : Type} (env : Env D) (bestServer : Option ServerDoc) (i : Nat)
    (question : Question) (rest : List Question) (s : LoopState) :
    questionLoop env bestServer i (question :: rest) s =
      match questionLoop env bestServer i [question] s with
      | (s1, Status.completed) => questionLoop env bestServer (i + 1) rest s1
      | r => r := by
  simp only [questionLoop]
  split
  · cases bestServer with
    | none => rfl
    | some serverInfo =>
      simp only
      split
      · rfl
      · rfl
      · split <;> rfl
  · rfl

theorem findBestDNSServer_nil {D : Type} [LinearOrder D] (geoip : IP → Option GeoRecord)
    (dist : Int × Int → Int × Int → D) (ipAddressOfClient : IP) :
    findBestDNSServer geoip dist [] ipAddressOfClient = none := by
  unfold findBestDNSServer
  cases geoip ipAddressOfClient <;> rfl

theorem questionLoop_all_hit {D : Type} (env : Env D) (bestServer : Option ServerDoc) :
    ∀ (questions : List Question) (i : Nat) (s : LoopState),
      (∀ q ∈ questions, cacheFind s.cache q ≠ []) →
      questionLoop env bestServer i questions s =
        ({ s with answers := s.answers ++
            questions.flatMap (fun q => (cacheFind s.cache q).map (fun d => d.answer)) },
          Status.completed)
  | [], _, s, _ => by simp [questionLoop]
  | q :: rest, i, s, h => by
    rw [questionLoop_hit env bestServer i q rest s (h q (List.mem_cons_self _ _))]
    rw [questionLoop_all_hit env bestServer rest (i + 1)
      { s with answers := s.answers ++ (cacheFind s.cache q).map (fun d => d.answer) }
      (fun x hx => h x (List.mem_cons_of_mem _ hx))]
    simp [List.append_assoc]

theorem questionLoop_no_server {D : Type} (env : Env D) :
    ∀ (questions : List Question) (i : Nat) (s : LoopState),
      (∃ q ∈ questions, cacheFind s.cache q = []) →
      (questionLoop env none i questions s).2 = Status.rejected Fault.typeError ∧
      (questionLoop env none i questions s).1.cache = s.cache ∧
      (questionLoop env none i questions s).1.outbound = s.outbound
  | [], _, _, h => by simp at h
  | q :: rest, i, s, h => by
    by_cases hq : cacheFind s.cache q = []
    · simp [questionLoop, hq]
    · rw [questionLoop_hit env none i q rest s hq]
      obtain ⟨x, hx, hxe⟩ := h
      have hx' : x ∈ rest := by
        rcases List.mem_cons.mp hx with h1 | h1
        · exact absurd (h1 ▸ hxe) hq
        · exact h1
      exact questionLoop_no_server env rest (i + 1) _ ⟨x, hx', hxe⟩

theorem questionLoop_refines {D : Type} (env : Env D) (bestServer : Option ServerDoc) :
    ∀ (questions : List Question) (i : Nat) (s : LoopState) (own : List (List Answer)),
      specResolveAll (upstreamAnswers env bestServer) i questions s.cache = some own →
      ∃ s1, questionLoop env bestServer i questions s = (s1, Status.completed) ∧
        s1.answers = s.answers ++ own.flatten
  | [], _, s, own, h => by
    simp only [specResolveAll, Option.some.injEq] at h
    subst h
    exact ⟨s, rfl, by simp⟩
  | q :: rest, i, s, own, h => by
    simp only [specResolveAll, specResolve, specLookup_eq] at h
    by_cases hq : cacheFind s.cache q = []
    · simp only [hq, List.map_nil, ne_eq, not_true_eq_false, if_false] at h
      cases hup : upstreamAnswers env bestServer i q with
      | none => simp [hup] at h
      | some answers =>
        obtain ⟨serverInfo, _, hstep⟩ :=
          questionLoop_forward env bestServer i q rest s answers hq hup
        rw [hstep]
        rw [hup] at h
        by_cases ha : answers = []
        · subst ha
          simp only [ne_eq, not_true_eq_false, if_false, Option.map_eq_some'] at h
          obtain ⟨l, hl, rfl⟩ := h
          obtain ⟨s1, h1, h2⟩ := questionLoop_refines env bestServer rest (i + 1)
            { cache := s.cache, answers := s.answers ++ [],
              outbound := s.outbound ++ [outboundQuery env.dnsPacket serverInfo q] } l hl
          exact ⟨s1, by simpa using h1, by simpa using h2⟩
        · simp only [ne_eq, ha, not_false_eq_true, if_true, Option.map_eq_some'] at h
          obtain ⟨l, hl, rfl⟩ := h
          have hlen : ¬ answers.length = 0 := fun h0 => ha (List.length_eq_zero.mp h0)
          obtain ⟨s1, h1, h2⟩ := questionLoop_refines env bestServer rest (i + 1)
            { cache := insertMany s.cache (answers.map (fun answer => ({ question := q, answer } : CacheDoc))),
              answers := s.answers ++ answers,
              outbound := s.outbound ++ [outboundQuery env.dnsPacket serverInfo q] } l
            (by simpa [insertMany] using hl)
          exact ⟨s1, by simpa [hlen] using h1, by simpa [List.append_assoc] using h2⟩
    · have hq' : ¬ List.map (fun d : CacheDoc => d.answer) (cacheFind s.cache q) = [] := by
        simpa using hq
      simp only [ne_eq, hq', not_false_eq_true, if_true, Option.map_eq_some'] at h
      obtain ⟨l, hl, rfl⟩ := h
      rw [questionLoop_hit env bestServer i q rest s hq]
      obtain ⟨s1, h1, h2⟩ := questionLoop_refines env bestServer rest (i + 1)
        { s with answers := s.answers ++ (cacheFind s.cache q).map (fun d => d.answer) } l hl
      exact ⟨s1, h1, by simpa [List.append_assoc] using h2⟩

theorem questionLoop_completed_resolves {D : Type} (env : Env D)
    (bestServer : Option ServerDoc) :
    ∀ (questions : List Question) (i : Nat) (s s1 : LoopState),
      questionLoop env bestServer i questions s = (s1, Status.completed) →
      ∃ own, specResolveAll (upstreamAnswers env bestServer) i questions s.cache = some own
  | [], _, _, _, _ => ⟨[], rfl⟩
  | q :: rest, i, s, s1, h => by
    by_cases hq : cacheFind s.cache q = []
    · cases hup : upstreamAnswers env bestServer i q with
      | none =>
        exfalso
        cases bestServer with
        | none => simp [questionLoop, hq] at h
        | some serverInfo =>
          simp only [upstreamAnswers, outboundQuery] at hup
          cases hu : env.upstream i
              { msg := env.dnsPacket.encode { type := PacketType.query, questions := [q] },
                port := serverInfo.port, address := serverInfo.ip } with
          | silent => simp [questionLoop, hq, hu] at h
          | error => simp [questionLoop, hq, hu] at h
          | message m =>
            rw [hu] at hup
            cases hd : env.dnsPacket.decode m with
            | none => simp [questionLoop, hq, hu, hd] at h
            | some r => simp [hd] at hup
      | some answers =>
        obtain ⟨serverInfo, _, hstep⟩ :=
          questionLoop_forward env bestServer i q rest s answers hq hup
        rw [hstep] at h
        obtain ⟨own, hown⟩ := questionLoop_completed_resolves env bestServer rest (i + 1) _ s1 h
        by_cases ha : answers = []
        · subst ha
          refine ⟨[] :: own, ?_⟩
          simp only [List.length_nil, if_true] at hown
          simp [specResolveAll, specResolve, specLookup_eq, hq, hup, hown]
        · have hlen : ¬ answers.length = 0 := fun h0 => ha (List.length_eq_zero.mp h0)
          refine ⟨answers :: own, ?_⟩
          simp only [hlen, if_false, insertMany] at hown
          simp [specResolveAll, specResolve, specLookup_eq, hq, hup, ha, hown]
    · rw [questionLoop_hit env bestServer i q rest s hq] at h
      obtain ⟨own, hown⟩ := questionLoop_completed_resolves env bestServer rest (i + 1) _ s1 h
      refine ⟨(cacheFind s.cache q).map (fun d => d.answer) :: own, ?_⟩
      have hq' : ¬ List.map (fun d : CacheDoc => d.answer) (cacheFind s.cache q) = [] := by
        simpa using hq
      simp only at hown
      simp [specResolveAll, specResolve, specLookup_eq, hq, hown]

theorem onMessage_status {D : Type} [LinearOrder D] (env : Env D) (servers : Directory)
    (cache : Cache) (rawIncomingMessage : Buffer) (info : RemoteInfo) (incomingMessage : Packet)
    (hdec : env.dnsPacket.decode rawIncomingMessage = some incomingMessage) :
    (onMessage env servers cache rawIncomingMessage info).status =
      (questionLoop env (findBestDNSServer env.geoip env.dist servers info.address) 0
        incomingMessage.questions { cache := cache, answers := [], outbound := [] }).2 := by
  simp only [onMessage, hdec]
  generalize questionLoop env (findBestDNSServer env.geoip env.dist servers info.address) 0
    incomingMessage.questions { cache := cache, answers := [], outbound := [] } = r
  rcases r with ⟨s1, st⟩
  cases st <;> rfl

theorem onMessage_of_loop {D : Type} [LinearOrder D] (env : Env D) (servers : Directory)
    (cache : Cache) (rawIncomingMessage : Buffer) (info : RemoteInfo) (incomingMessage : Packet)
    (s1 : LoopState)
    (hdec : env.dnsPacket.decode rawIncomingMessage = some incomingMessage)
    (hloop : questionLoop env (findBestDNSServer env.geoip env.dist servers info.address) 0
      incomingMessage.questions { cache := cache, answers := [], outbound := [] } =
        (s1, Status.completed)) :
    onMessage env servers cache rawIncomingMessage info =
      { cache := s1.cache, outbound := s1.outbound,
        sent := [responseTo env.dnsPacket incomingMessage info s1.answers],
        status := Status.completed } := by
  simp [onMessage, hdec, hloop, responseTo]

/-! ## Claims on the cache and the handler -/

/-- C3, evaluated on the code.  The handler answers the sample query from upstream and stores
the answer.  Whatever dates the store reads from the fields of a document, a pass of the TTL
monitor over the index of index.js 17-22 at `now = 86400`, that is 24 hours after a write at
time 0, and at every other time, removes nothing: the index is compound, so its
`expireAfterSeconds` is ignored.  The later lookup still returns the entry. -/
theorem cache_entry_outlives_24h (dateOf : CacheDoc → String → Option Nat) (now : Nat) :
    (onMessage sampleEnv sampleReordered [] [0, 7, 1, 0, 11] sampleInfo).cache =
      [{ question := sampleQ1, answer := sampleA1 }] ∧
    cacheFind (ttlPass dateOf cacheIndex 86400 [{ question := sampleQ1, answer := sampleA1 }])
      sampleQ1 = [{ question := sampleQ1, answer := sampleA1 }] ∧
    cacheFind (ttlPass dateOf cacheIndex now [{ question := sampleQ1, answer := sampleA1 }])
      sampleQ1 = [{ question := sampleQ1, answer := sampleA1 }] := by
  refine ⟨by decide, ?_, ?_⟩ <;> simp only [ttlPass, cacheIndex] <;> decide

/-- C5. For a decodable query the handler completes exactly when every question can be
resolved as the specification describes (it is found in the cache when its turn comes, or the
selected upstream sends a decodable reply for it).  The answer list of the response is then the
concatenation, in question order, of each question's own answers.  In particular, when the
questions are `[q1, q2]`, both lookups made by the handler miss, and the upstream replies are
`[a1]` and `[a2]`, the answers are `[a1, a2]`. -/
theorem answers_in_question_order {D : Type} [LinearOrder D] (env : Env D) (servers : Directory)
    (cache : Cache) (rawIncomingMessage : Buffer) (info : RemoteInfo) (incomingMessage : Packet)
    (hdec : env.dnsPacket.decode rawIncomingMessage = some incomingMessage) :
    ((onMessage env servers cache rawIncomingMessage info).status = Status.completed ↔
      ∃ own, specResolveAll
        (upstreamAnswers env (findBestDNSServer env.geoip env.dist servers info.address)) 0
        incomingMessage.questions cache = some own) ∧
    (∀ own : List (List Answer),
      specResolveAll
        (upstreamAnswers env (findBestDNSServer env.geoip env.dist servers info.address)) 0
        incomingMessage.questions cache = some own →
      (onMessage env servers cache rawIncomingMessage info).sent =
        [responseTo env.dnsPacket incomingMessage info own.flatten]) ∧
    (∀ (q1 q2 : Question) (a1 a2 : Answer),
      incomingMessage.questions = [q1, q2] →
      cacheFind cache q1 = [] →
      upstreamAnswers env (findBestDNSServer env.geoip env.dist servers info.address) 0 q1 =
        some [a1] →
      cacheFind (insertMany cache [{ question := q1, answer := a1 }]) q2 = [] →
      upstreamAnswers env (findBestDNSServer env.geoip env.dist servers info.address) 1 q2 =
        some [a2] →
      (onMessage env servers cache rawIncomingMessage info).sent =
        [responseTo env.dnsPacket incomingMessage info [a1, a2]]) := by
  have key : ∀ own : List (List Answer),
      specResolveAll
        (upstreamAnswers env (findBestDNSServer env.geoip env.dist servers info.address)) 0
        incomingMessage.questions cache = some own →
      (onMessage env servers cache rawIncomingMessage info).status = Status.completed ∧
      (onMessage env servers cache rawIncomingMessage info).sent =
        [responseTo env.dnsPacket incomingMessage info own.flatten] := by
    intro own hown
    obtain ⟨s1, h1, h2⟩ := questionLoop_refines env
      (findBestDNSServer env.geoip env.dist servers info.address) incomingMessage.questions 0
      { cache := cache, answers := [], outbound := [] } own hown
    rw [onMessage_of_loop env servers cache rawIncomingMessage info incomingMessage s1 hdec h1]
    simp [h2]
  refine ⟨⟨?_, fun ⟨own, hown⟩ => (key own hown).1⟩, fun own hown => (key own hown).2, ?_⟩
  · intro hdone
    rw [onMessage_status env servers cache rawIncomingMessage info incomingMessage hdec] at hdone
    exact questionLoop_completed_resolves env _ incomingMessage.questions 0
      { cache := cache, answers := [], outbound := [] }
      (questionLoop env (findBestDNSServer env.geoip env.dist servers info.address) 0
        incomingMessage.questions { cache := cache, answers := [], outbound := [] }).1
      (by rw [← hdone])
  · intro q1 q2 a1 a2 hqs h1 hu1 h2 hu2
    have := (key [[a1], [a2]] (by
      rw [hqs]
      have h2' : cacheFind (cache ++ [({ question := q1, answer := a1 } : CacheDoc)]) q2 = [] := h2
      simp [specResolveAll, specResolve, specLookup_eq, h1, hu1, h2', hu2])).2
    simpa using this

/-- Witness of C5: the sample query with the questions `[Q1, Q2]` on an empty cache. -/
theorem answers_in_question_order_witness :
    (specResolveAll (upstreamAnswers sampleEnv
        (findBestDNSServer sampleEnv.geoip sampleEnv.dist sampleReordered sampleInfo.address)) 0
        [sampleQ1, sampleQ2] [] = some [[sampleA1], [sampleA2]] ∧
      (onMessage sampleEnv sampleReordered [] [0, 9, 2, 0, 11, 8] sampleInfo).sent =
        [responseTo sampleEnv.dnsPacket
          { type := PacketType.query, id := 9, questions := [sampleQ1, sampleQ2] } sampleInfo
          [[sampleA1], [sampleA2]].flatten]) ∧
    (onMessage sampleEnv sampleReordered [] [0, 9, 2, 0, 11, 8] sampleInfo).sent =
      [responseTo sampleEnv.dnsPacket
        { type := PacketType.query, id := 9, questions := [sampleQ1, sampleQ2] } sampleInfo
        [sampleA1, sampleA2]] :=
  ⟨⟨by decide,
    (answers_in_question_order sampleEnv sampleReordered [] [0, 9, 2, 0, 11, 8] sampleInfo
      { type := PacketType.query, id := 9, questions := [sampleQ1, sampleQ2] }
      (by decide)).2.1 [[sampleA1], [sampleA2]] (by decide)⟩,
   (answers_in_question_order sampleEnv sampleReordered [] [0, 9, 2, 0, 11, 8] sampleInfo
    { type := PacketType.query, id := 9, questions := [sampleQ1, sampleQ2] } (by decide)).2.2
    sampleQ1 sampleQ2 sampleA1 sampleA2 (by decide) (by decide) (by decide) (by decide)
    (by decide)⟩

/-- C6. The handler processes a question by running the loop body on it and then going on with
the remaining questions.  On a question whose cache lookup is non-empty the cache is unchanged.
On a question that misses, with a decoded upstream reply carrying `answers`: the cache is
unchanged when `answers` is empty; otherwise the new cache is the old one followed by one
document per answer, in reply order, each pairing the answer with this question. -/
theorem question_cache_effect {D : Type} (env : Env D) (bestServer : Option ServerDoc) (i : Nat)
    (question : Question) (rest : List Question) (s : LoopState) :
    (questionLoop env bestServer i (question :: rest) s =
      match questionLoop env bestServer i [question] s with
      | (s1, Status.completed) => questionLoop env bestServer (i + 1) rest s1
      | r => r) ∧
    (cacheFind s.cache question ≠ [] →
      (questionLoop env bestServer i [question] s).1.cache = s.cache) ∧
    (∀ answers : List Answer, cacheFind s.cache question = [] →
      upstreamAnswers env bestServer i question = some answers →
      (answers = [] → (questionLoop env bestServer i [question] s).1.cache = s.cache) ∧
      (answers ≠ [] →
        (questionLoop env bestServer i [question] s).1.cache =
          s.cache ++ answers.map (fun answer => ({ question, answer } : CacheDoc)) ∧
        (questionLoop env bestServer i [question] s).1.cache.length =
          s.cache.length + answers.length)) := by
  refine ⟨questionLoop_cons env bestServer i question rest s, ?_, ?_⟩
  · intro h
    rw [questionLoop_hit env bestServer i question [] s h]
    simp [questionLoop]
  · intro answers h hup
    obtain ⟨serverInfo, _, hstep⟩ :=
      questionLoop_forward env bestServer i question [] s answers h hup
    rw [hstep]
    constructor
    · intro ha
      simp [questionLoop, ha]
    · intro ha
      have hlen : ¬ answers.length = 0 := fun h0 => ha (List.length_eq_zero.mp h0)
      simp [questionLoop, hlen, insertMany]

/-- Witness of C6: `Q1` hits the cache that holds its answer; `Q2` misses it and the upstream
replies with `[A2]`. -/
theorem question_cache_effect_witness :
    (cacheFind [{ question := sampleQ1, answer := sampleA1 }] sampleQ1 ≠ [] ∧
      (questionLoop sampleEnv (some sampleDocS2) 0 [sampleQ1]
        { cache := [{ question := sampleQ1, answer := sampleA1 }], answers := [],
          outbound := [] }).1.cache = [{ question := sampleQ1, answer := sampleA1 }]) ∧
    (cacheFind [{ question := sampleQ1, answer := sampleA1 }] sampleQ2 = [] ∧
      upstreamAnswers sampleEnv (some sampleDocS2) 1 sampleQ2 = some [sampleA2] ∧
      [sampleA2] ≠ [] ∧
      (questionLoop sampleEnv (some sampleDocS2) 1 [sampleQ2]
        { cache := [{ question := sampleQ1, answer := sampleA1 }], answers := [],
          outbound := [] }).1.cache =
        [{ question := sampleQ1, answer := sampleA1 }] ++
          [sampleA2].map (fun answer => ({ question := sampleQ2, answer } : CacheDoc)) ∧
      (questionLoop sampleEnv (some sampleDocS2) 1 [sampleQ2]
        { cache := [{ question := sampleQ1, answer := sampleA1 }], answers := [],
          outbound := [] }).1.cache.length = 1 + [sampleA2].length) :=
  ⟨⟨by decide,
    (question_cache_effect sampleEnv (some sampleDocS2) 0 sampleQ1 []
      { cache := [{ question := sampleQ1, answer := sampleA1 }], answers := [],
        outbound := [] }).2.1 (by decide)⟩,
   by decide, by decide, by decide,
   ((question_cache_effect sampleEnv (some sampleDocS2) 1 sampleQ2 []
      { cache := [{ question := sampleQ1, answer := sampleA1 }], answers := [],
        outbound := [] }).2.2 [sampleA2] (by decide) (by decide)).2 (by decide)⟩

/-- C7 as stated fails.  The buffer `[3]` does not decode; the handler does not complete, its
promise is rejected with the decode error. -/
theorem malformed_datagram_rejects :
    sampleEnv.dnsPacket.decode [3] = none ∧
    (onMessage sampleEnv sampleReordered [] [3] sampleInfo).status ≠ Status.completed ∧
    (onMessage sampleEnv sampleReordered [] [3] sampleInfo).status =
      Status.rejected Fault.decodeError := by
  decide

/-- C7, amended.  On a datagram that fails to decode the handler sends no response, leaves the
cache unchanged and contacts no upstream; the decode error is not caught, the handler ends with
its promise rejected. -/
theorem malformed_datagram_discarded {D : Type} [LinearOrder D] (env : Env D)
    (servers : Directory) (cache : Cache) (rawIncomingMessage : Buffer) (info : RemoteInfo)
    (hdec : env.dnsPacket.decode rawIncomingMessage = none) :
    onMessage env servers cache rawIncomingMessage info =
      { cache := cache, outbound := [], sent := [],
        status := Status.rejected Fault.decodeError } := by
  simp [onMessage, hdec]

/-- Witness of the amended C7 on the buffer `[3]` and a non-empty cache. -/
theorem malformed_datagram_discarded_witness :
    sampleEnv.dnsPacket.decode [3] = none ∧
    onMessage sampleEnv sampleReordered [{ question := sampleQ1, answer := sampleA1 }] [3]
      sampleInfo =
      { cache := [{ question := sampleQ1, answer := sampleA1 }], outbound := [], sent := [],
        status := Status.rejected Fault.decodeError } :=
  ⟨by decide,
   malformed_datagram_discarded sampleEnv sampleReordered
     [{ question := sampleQ1, answer := sampleA1 }] [3] sampleInfo (by decide)⟩

/-- C8 as stated fails.  With an empty directory and a cache that holds the answer to `Q1`, the
handler completes on the sample query for `Q1` and sends the response. -/
theorem empty_directory_cached_query_answered :
    onMessage sampleEnv [] [{ question := sampleQ1, answer := sampleA1 }] [0, 7, 1, 0, 11]
      sampleInfo =
      { cache := [{ question := sampleQ1, answer := sampleA1 }], outbound := [],
        sent := [{ msg := [1, 7, 0, 1, 300], port := 40000, address := "203.0.113.5" }],
        status := Status.completed } ∧
    ¬ ((onMessage sampleEnv [] [{ question := sampleQ1, answer := sampleA1 }] [0, 7, 1, 0, 11]
        sampleInfo).status ≠ Status.completed ∧
      (onMessage sampleEnv [] [{ question := sampleQ1, answer := sampleA1 }] [0, 7, 1, 0, 11]
        sampleInfo).sent = []) := by
  decide

/-- C8, amended.  While the directory is empty the handler never contacts an upstream and never
changes the cache.  It fails with an error and sends no response when the datagram does not
decode or when some question of the query misses the cache.  When each question of the query is
found in the cache it completes and responds with the cached answers. -/
theorem empty_directory_behaviour {D : Type} [LinearOrder D] (env : Env D) (cache : Cache)
    (rawIncomingMessage : Buffer) (info : RemoteInfo) :
    (onMessage env [] cache rawIncomingMessage info).outbound = [] ∧
    (onMessage env [] cache rawIncomingMessage info).cache = cache ∧
    (env.dnsPacket.decode rawIncomingMessage = none →
      (onMessage env [] cache rawIncomingMessage info).status =
        Status.rejected Fault.decodeError ∧
      (onMessage env [] cache rawIncomingMessage info).sent = []) ∧
    (∀ incomingMessage : Packet,
      env.dnsPacket.decode rawIncomingMessage = some incomingMessage →
      ((∃ q ∈ incomingMessage.questions, cacheFind cache q = []) →
        (onMessage env [] cache rawIncomingMessage info).status =
          Status.rejected Fault.typeError ∧
        (onMessage env [] cache rawIncomingMessage info).sent = []) ∧
      ((∀ q ∈ incomingMessage.questions, cacheFind cache q ≠ []) →
        (onMessage env [] cache rawIncomingMessage info).status = Status.completed ∧
        (onMessage env [] cache rawIncomingMessage info).sent =
          [responseTo env.dnsPacket incomingMessage info
            (incomingMessage.questions.flatMap
              (fun q => (cacheFind cache q).map (fun d => d.answer)))])) := by
  cases hdec : env.dnsPacket.decode rawIncomingMessage with
  | none => simp [onMessage, hdec]
  | some incomingMessage =>
    by_cases hall : ∀ q ∈ incomingMessage.questions, cacheFind cache q ≠ []
    · have hloop := questionLoop_all_hit env
        (findBestDNSServer env.geoip env.dist [] info.address) incomingMessage.questions 0
        { cache := cache, answers := [], outbound := [] } hall
      have hm := onMessage_of_loop env [] cache rawIncomingMessage info incomingMessage _ hdec
        hloop
      rw [hm]
      refine ⟨rfl, rfl, by simp, ?_⟩
      intro m hm'
      cases hm'
      refine ⟨?_, fun _ => ⟨rfl, by simp⟩⟩
      rintro ⟨q, hq, hqe⟩
      exact absurd hqe (hall q hq)
    · have hex : ∃ q ∈ incomingMessage.questions, cacheFind cache q = [] := by
        by_contra hcon
        exact hall (fun q hq hqe => hcon ⟨q, hq, hqe⟩)
      obtain ⟨h1, h2, h3⟩ := questionLoop_no_server env incomingMessage.questions 0
        { cache := cache, answers := [], outbound := [] } hex
      have hm : onMessage env [] cache rawIncomingMessage info =
          { cache := cache, outbound := [], sent := [],
            status := Status.rejected Fault.typeError } := by
        simp only [onMessage, hdec, findBestDNSServer_nil]
        generalize questionLoop env none 0 incomingMessage.questions
          { cache := cache, answers := [], outbound := [] } = r at h1 h2 h3
        rcases r with ⟨s1, st⟩
        simp only at h1 h2 h3
        subst h1
        simp [h2, h3]
      rw [hm]
      refine ⟨rfl, rfl, by simp, ?_⟩
      intro m hm'
      cases hm'
      exact ⟨fun _ => ⟨rfl, rfl⟩, fun h => absurd h hall⟩

/-- Witness of the amended C8: with an empty directory the sample query for `[Q1, Q2]` fails on
`Q2` when only `Q1` is cached, and the sample query for `Q1` is answered. -/
theorem empty_directory_behaviour_witness :
    (sampleEnv.dnsPacket.decode [0, 9, 2, 0, 11, 8] =
        some { type := PacketType.query, id := 9, questions := [sampleQ1, sampleQ2] } ∧
      (∃ q ∈ [sampleQ1, sampleQ2],
        cacheFind [{ question := sampleQ1, answer := sampleA1 }] q = []) ∧
      (onMessage sampleEnv [] [{ question := sampleQ1, answer := sampleA1 }]
        [0, 9, 2, 0, 11, 8] sampleInfo).status = Status.rejected Fault.typeError ∧
      (onMessage sampleEnv [] [{ question := sampleQ1, answer := sampleA1 }]
        [0, 9, 2, 0, 11, 8] sampleInfo).sent = []) ∧
    (sampleEnv.dnsPacket.decode [3] = none ∧
      (onMessage sampleEnv [] [] [3] sampleInfo).status = Status.rejected Fault.decodeError ∧
      (onMessage sampleEnv [] [] [3] sampleInfo).sent = []) ∧
    (sampleEnv.dnsPacket.decode [0, 7, 1, 0, 11] =
        some { type := PacketType.query, id := 7, questions := [sampleQ1] } ∧
      (∀ q ∈ [sampleQ1], cacheFind [{ question := sampleQ1, answer := sampleA1 }] q ≠ []) ∧
      (onMessage sampleEnv [] [{ question := sampleQ1, answer := sampleA1 }]
        [0, 7, 1, 0, 11] sampleInfo).status = Status.completed) :=
  ⟨⟨by decide, by decide,
    ((empty_directory_behaviour sampleEnv [{ question := sampleQ1, answer := sampleA1 }]
      [0, 9, 2, 0, 11, 8] sampleInfo).2.2.2
      { type := PacketType.query, id := 9, questions := [sampleQ1, sampleQ2] }
      (by decide)).1 (by decide)⟩,
   ⟨by decide,
    (empty_directory_behaviour sampleEnv [] [3] sampleInfo).2.2.1 (by decide)⟩,
   ⟨by decide, by decide,
    (((empty_directory_behaviour sampleEnv [{ question := sampleQ1, answer := sampleA1 }]
      [0, 7, 1, 0, 11] sampleInfo).2.2.2
      { type := PacketType.query, id := 7, questions := [sampleQ1] }
      (by decide)).2 (by decide)).1⟩⟩

/-- C10. When the datagram decodes and the handler completes, exactly one datagram is sent on
the server socket: it goes to the port and address the query came from and it is the encoding
of a message of type response whose id is the id of the query. -/
theorem one_response_to_sender {D : Type} [LinearOrder D] (env : Env D) (servers : Directory)
    (cache : Cache) (rawIncomingMessage : Buffer) (info : RemoteInfo) (incomingMessage : Packet)
    (hdec : env.dnsPacket.decode rawIncomingMessage = some incomingMessage)
    (hdone : (onMessage env servers cache rawIncomingMessage info).status = Status.completed) :
    ∃ answers : List Answer,
      (onMessage env servers cache rawIncomingMessage info).sent =
        [{ msg := env.dnsPacket.encode
            { type := PacketType.response, answers := answers, id := incomingMessage.id },
           port := info.port, address := info.address }] := by
  simp only [onMessage, hdec] at hdone ⊢
  generalize questionLoop env (findBestDNSServer env.geoip env.dist servers info.address) 0
    incomingMessage.questions { cache := cache, answers := [], outbound := [] } = r at hdone ⊢
  rcases r with ⟨s1, st⟩
  cases st with
  | completed => exact ⟨s1.answers, rfl⟩
  | rejected f => simp at hdone
  | pending => simp at hdone

/-- Witness of C10 on the sample query for `Q1`. -/
theorem one_response_to_sender_witness :
    (onMessage sampleEnv sampleReordered [] [0, 7, 1, 0, 11] sampleInfo).status =
      Status.completed ∧
    ∃ answers : List Answer,
      (onMessage sampleEnv sampleReordered [] [0, 7, 1, 0, 11] sampleInfo).sent =
        [{ msg := sampleEnv.dnsPacket.encode
            { type := PacketType.response, answers := answers, id := 7 },
           port := sampleInfo.port, address := sampleInfo.address }] :=
  ⟨by decide,
   one_response_to_sender sampleEnv sampleReordered [] [0, 7, 1, 0, 11] sampleInfo
     { type := PacketType.query, id := 7, questions := [sampleQ1] } (by decide) (by decide)⟩

end GeoDnsCache
